import Mathlib

/-!
Verification development for the NASA Worldview assistant repository.

The layer-resolution engine (`tools/worldview.py`) and the bounded
tool-invocation loop (`graph.py`) are embedded shallowly: Python strings
become `String` (operated on through their character lists), the ordered
layer catalog becomes an association list `List (String × String)` of
(layer id, title) pairs in insertion order, the network fetch outcome
becomes `Option Catalog` (with `none` for any fetch failure), the current
UTC time and the host's local-timezone offset become explicit parameters,
and the opaque language model becomes a function argument.
-/

namespace Worldview

/-! ### Python string primitives, modelled over character lists -/

/-- ASCII lower-casing of one character, as Python `str.lower` does for ASCII. -/
def lowerChar (c : Char) : Char :=
  if 65 ≤ c.toNat ∧ c.toNat ≤ 90 then Char.ofNat (c.toNat + 32) else c

/-- Python `str.lower()`. -/
def pyLower (s : String) : String :=
  ⟨s.data.map lowerChar⟩

/-- Whitespace characters recognised by Python `str.strip()` / `str.split()`. -/
def isWsChar (c : Char) : Bool :=
  c = ' ' || c = '\t' || c = '\n' || c = '\x0d' || c = '\x0b' || c = '\x0c'

/-- Python `str.strip()`: drop leading and trailing whitespace. -/
def pyStrip (s : String) : String :=
  ⟨(((s.data.dropWhile isWsChar).reverse.dropWhile isWsChar).reverse)⟩

/-- Substring test on character lists: does `sub` occur inside `hay`?
Models the Python `in` operator on strings (an empty needle matches). -/
def hasSubstr (sub : List Char) : List Char → Bool
  | [] => sub.isEmpty
  | c :: t => sub.isPrefixOf (c :: t) || hasSubstr sub t

/-- Python `sub in hay` on strings. -/
def pyContains (hay sub : String) : Bool :=
  hasSubstr sub.data hay.data

/-- Worker for `pySplit`, with explicit fuel so that the recursion is
structural; the wrapper supplies fuel equal to the input length, which is
enough for the scan to finish. -/
def splitOnSubAux (sep : List Char) : Nat → List Char → List Char → List (List Char)
  | _, acc, [] => [acc.reverse]
  | 0, acc, l => [acc.reverse ++ l]
  | Nat.succ fuel, acc, c :: t =>
      if sep ≠ [] ∧ sep.isPrefixOf (c :: t) then
        acc.reverse :: splitOnSubAux sep fuel [] (t.drop (sep.length - 1))
      else
        splitOnSubAux sep fuel (c :: acc) t

/-- Python `s.split(sep)` for a non-empty separator: split at every
non-overlapping occurrence, scanning left to right, keeping empty pieces. -/
def pySplit (s sep : String) : List String :=
  (splitOnSubAux sep.data s.data.length [] s.data).map List.asString

/-- Worker for `pyReplace`, again with structural fuel. -/
def replaceSubAux (old new : List Char) : Nat → List Char → List Char → List Char
  | _, acc, [] => acc.reverse
  | 0, acc, l => acc.reverse ++ l
  | Nat.succ fuel, acc, c :: t =>
      if old ≠ [] ∧ old.isPrefixOf (c :: t) then
        replaceSubAux old new fuel (new.reverse ++ acc) (t.drop (old.length - 1))
      else
        replaceSubAux old new fuel (c :: acc) t

/-- Python `s.replace(old, new)` for a non-empty `old`. -/
def pyReplace (s old new : String) : List Char :=
  replaceSubAux old.data new.data s.data.length [] s.data

/-- Worker for `pySplitWs`: split on runs of whitespace, dropping empties. -/
def splitWsAux (acc : List Char) : List Char → List (List Char)
  | [] => if acc.isEmpty then [] else [acc.reverse]
  | c :: t =>
      if isWsChar c then
        if acc.isEmpty then splitWsAux [] t else acc.reverse :: splitWsAux [] t
      else
        splitWsAux (c :: acc) t

/-- Python `s.split()` with no separator argument. -/
def pySplitWs (s : String) : List String :=
  (splitWsAux [] s.data).map List.asString

/-- Python `sep.join(xs)`. -/
def pyJoin (sep : String) : List String → String
  | [] => ""
  | x :: rest => rest.foldl (fun acc y => acc ++ sep ++ y) x

/-- Python `opt or dflt` for an optional string: `None` and `""` are falsy. -/
def pyOr (opt : Option String) (dflt : String) : String :=
  match opt with
  | some s => if s = "" then dflt else s
  | none => dflt

/-! ### Fixed tables from `tools/worldview.py` -/

/-- `WV_BASE` from the source. -/
def WV_BASE : String := "https://worldview.earthdata.nasa.gov/"

/-- `_default_bbox()` from the source: the whole-world extent. -/
def defaultBbox : String := "-180,-90,180,90"

/-- `BBOX_HINTS` in its Python dict insertion order. -/
def BBOX_HINTS : List (String × String) :=
  [("bangladesh", "87,20,93,27"),
   ("california", "-130,32,-114,43"),
   ("greece", "18,34,30,42"),
   ("sahara", "-20,15,30,35"),
   ("amazon", "-75,-15,-45,5"),
   ("philippines", "117,5,127,21"),
   ("western canada", "-140,45,-110,65"),
   ("alps", "5,43,15,48"),
   ("japan", "128,30,148,46"),
   ("iceland", "-26,62,-12,68"),
   ("middle east", "30,12,60,38"),
   ("northern india", "74,22,87,32"),
   ("eastern europe", "18,44,40,56"),
   ("portugal", "-10,36,-5,43"),
   ("gulf of mexico", "-97,18,-81,30")]

/-- `KEYWORD_HINTS` in its Python dict insertion order. -/
def KEYWORD_HINTS : List (String × List String) :=
  [("fire", ["Thermal_Anomalies", "Fires", "FIRMS", "VIIRS", "MODIS"]),
   ("fires", ["Thermal_Anomalies", "Fires", "FIRMS", "VIIRS", "MODIS"]),
   ("smoke", ["Aerosol", "AOD", "Smoke"]),
   ("aerosol", ["Aerosol", "AOD", "OMI", "VIIRS", "MODIS"]),
   ("aod", ["AOD", "Aerosol"]),
   ("dust", ["Dust", "Aerosol", "AI"]),
   ("snow", ["Snow", "Snow_Cover", "SC"]),
   ("sst", ["Sea_Surface_Temperature", "SST", "GHRSST", "VIIRS"]),
   ("temperature", ["Temperature", "SST"]),
   ("true color", ["CorrectedReflectance_TrueColor"]),
   ("flood", ["Flood", "Surface_Water", "Water_Extent"]),
   ("flooding", ["Flood", "Surface_Water", "Water_Extent"])]

/-- The fixed true-color marker substring used throughout the source. -/
def trueColorMarker : String := "CorrectedReflectance_TrueColor"

/-- The preferred true-color layer ids of `_prefer_true_color`, in order. -/
def preferredTrueColorIds : List String :=
  ["VIIRS_SNPP_CorrectedReflectance_TrueColor",
   "MODIS_Terra_CorrectedReflectance_TrueColor",
   "MODIS_Aqua_CorrectedReflectance_TrueColor"]

/-- The default layer id substituted on catalog failure or empty search. -/
def defaultTrueColorId : String := "MODIS_Terra_CorrectedReflectance_TrueColor"

/-- The separator list of `_split_query_parts`, in source order. -/
def querySeparators : List String := ["+", ",", " and ", " & "]

/-- The leading-connector list of `_split_query_parts`, in source order,
as character lists. -/
def connectorPrefixesData : List (List Char) :=
  ["show ".data, "give me ".data, "display ".data, "visualize ".data,
   "map ".data, "over ".data, "in ".data, "around ".data, "near ".data]

/-! ### The layer catalog -/

/-- The remote catalog's `layers` mapping: (layer id, title) pairs in the
document's insertion order.  A missing or non-string title is already
collapsed to its `str(meta.get("title", ""))` rendering. -/
abbrev Catalog : Type := List (String × String)

/-- `_prefer_true_color(config)`: the first preferred id present in the
catalog, else the first entry whose id contains the marker or whose title
contains `"True Color"` (case-sensitive, as in the source), else `none`. -/
def prefer_true_color (config : Catalog) : Option String :=
  match preferredTrueColorIds.find? (fun pid => config.any (fun e => e.1 = pid)) with
  | some pid => some pid
  | none =>
      (config.find? (fun e =>
        pyContains e.1 trueColorMarker || pyContains e.2 "True Color")).map (·.1)

/-- The `out` accumulation loop of `_offline_select_from_query`: keep truthy
ids not seen before, in order. -/
def pickDedupe : List String → List String → List String
  | out, [] => out
  | out, lid :: rest =>
      if lid ≠ "" ∧ lid ∉ out then pickDedupe (out ++ [lid]) rest
      else pickDedupe out rest

/-- `_offline_select_from_query(q)`: catalog-independent heuristic picks. -/
def offline_select_from_query (q : String) : List String :=
  let ql := pyLower q
  let has : List String → Bool := fun ks => ks.any (fun k => pyContains ql k)
  let picks :=
    (if has ["fire", "fires", "wildfire", "wildfires"]
       then ["MODIS_Terra_Thermal_Anomalies_Night"] else []) ++
    (if has ["smoke", "aerosol", "aod", "haze", "plume"]
       then ["MODIS_Terra_Aerosol"] else []) ++
    (if has ["snow", "snow cover", "ice", "glacier"]
       then ["MODIS_Terra_Snow_Cover_Daily"] else []) ++
    (if has ["sst", "sea surface temperature", "sea-surface temperature", "ocean temp"]
       then ["GHRSST_L4_MUR_Sea_Surface_Temperature"] else []) ++
    (if has ["ash", "volcanic", "volcano", "so2"]
       then ["OMI_SO2_Column_Amount"] else []) ++
    (if has ["flood", "flooding", "surface water", "water extent", "inundation"]
       then ["VIIRS_SNPP_Flood_Water_Composite"] else []) ++
    (if has ["dust", "sand", "blowing dust"]
       then ["OMI_Aerosol_Index"] else [])
  (pickDedupe [] picks).take 3

/-! ### Query partitioning (`_split_query_parts`) -/

/-- One pass of the separator loop body: split every part on `sep`,
strip each piece, and drop empties. -/
def sepPass (sep : String) (parts : List String) : List String :=
  parts.flatMap (fun p => ((pySplit p sep).map pyStrip).filter (· ≠ ""))

/-- The separator loop of `_split_query_parts` as written in the source:
`tmp` is recomputed from the unchanged `parts = [q]` on every pass and
`parts = tmp` is only assigned after the loop, so solely the final
separator `" & "` takes effect. -/
def splitSeparatorPasses (q : String) : List String :=
  sepPass " & " [q]

/-- The connector-stripping inner loop over the fixed list of connector
strings: each entry is tested once, in order, against the current phrase. -/
def stripFold : List (List Char) → List Char → List Char
  | [], p => p
  | q :: qs, p => stripFold qs (if q.isPrefixOf p then p.drop q.length else p)

/-- Connector stripping for one phrase, as the source's inner `for` loop. -/
def stripConnectors (p : List Char) : List Char :=
  stripFold connectorPrefixesData p

/-- The seen-set deduplication loop of `_split_query_parts`. -/
def dedupeAux (seen : List String) : List String → List String
  | [] => []
  | p :: ps =>
      if p ∈ seen then dedupeAux seen ps
      else p :: dedupeAux (p :: seen) ps

/-- `_split_query_parts(q)`: lower-case, run the (effectively `" & "`-only)
separator passes, strip leading connectors, strip whitespace, and
deduplicate keeping first occurrences. -/
def split_query_parts (q : String) : List String :=
  let parts := splitSeparatorPasses (pyLower q)
  let cleaned := parts.map (fun p => pyStrip ⟨stripConnectors p.data⟩)
  dedupeAux [] cleaned

/-- Modelled from the spec: the separator passes as section 4.2 words them,
each separator applied successively to the results of the previous split,
followed by the same stripping and deduplication as the source. -/
def splitPartsSuccessiveSpec (q : String) : List String :=
  let parts := querySeparators.foldl (fun ps sep => sepPass sep ps) [pyLower q]
  let cleaned := parts.map (fun p => pyStrip ⟨stripConnectors p.data⟩)
  dedupeAux [] cleaned

/-- Modelled from the spec: connector stripping as claim C4 words it — at
most one leading connector removed, the first match in enumerated order
winning. -/
def stripConnectorsOnceSpec (p : List Char) : List Char :=
  match connectorPrefixesData.find? (fun q => q.isPrefixOf p) with
  | some q => p.drop q.length
  | none => p

/-! ### Layer scoring and search (`_search_layers`) -/

/-- `score_layer(layer_id, meta, qpart)` from `_search_layers`. -/
def score_layer (lid title qpart : String) : Nat :=
  let titleL := pyLower title
  let idL := pyLower lid
  let s1 := if qpart ≠ "" ∧ (pyContains titleL qpart || pyContains idL qpart) then 10 else 0
  let tokens := (pySplitWs ⟨pyReplace qpart "," " "⟩).filter (· ≠ "")
  let s2 := tokens.foldl (fun acc t =>
    acc + (if pyContains titleL t then 2 else 0) + (if pyContains idL t then 1 else 0)) 0
  let s3 := KEYWORD_HINTS.foldl (fun acc kp =>
    if pyContains qpart kp.1 then
      acc + kp.2.foldl (fun a pat =>
        if pyContains idL (pyLower pat) || pyContains titleL (pyLower pat) then a + 3 else a) 0
    else acc) 0
  s1 + s2 + s3

/-- The positive-score candidate list for one query part, in catalog order:
`scores` before sorting. -/
def scoresOf (config : Catalog) (part : String) : List (Nat × String) :=
  config.filterMap (fun e =>
    let s := score_layer e.1 e.2 part
    if 0 < s then some (s, e.1) else none)

/-- Stable descending insertion by score; together with `sortDesc` this is
extensionally Python's stable `list.sort(key=score, reverse=True)`. -/
def insertDesc (a : Nat × String) : List (Nat × String) → List (Nat × String)
  | [] => [a]
  | b :: t => if b.1 ≤ a.1 then a :: b :: t else b :: insertDesc a t

/-- Stable descending sort by score. -/
def sortDesc : List (Nat × String) → List (Nat × String)
  | [] => []
  | a :: t => insertDesc a (sortDesc t)

/-- The sorted candidate list for one query part. -/
def sortedScores (config : Catalog) (part : String) : List (Nat × String) :=
  sortDesc (scoresOf config part)

/-- The earliest maximal-score candidate of a list — what a stable
descending sort places first. -/
def firstMax : List (Nat × String) → Option (Nat × String)
  | [] => none
  | a :: t =>
      match firstMax t with
      | none => some a
      | some b => if b.1 ≤ a.1 then some a else some b

/-- The inner pick of `_search_layers`: the first sorted candidate whose id
is not already selected. -/
def firstNotIn : List (Nat × String) → List String → Option String
  | [], _ => none
  | (_, lid) :: rest, sel => if lid ∈ sel then firstNotIn rest sel else some lid

/-- One part's contribution in `_search_layers`: append the best unselected
candidate, if any. -/
def searchPick (config : Catalog) (part : String) (sel : List String) : List String :=
  match firstNotIn (sortedScores config part) sel with
  | some lid => sel ++ [lid]
  | none => sel

/-- The per-part selection loop of `_search_layers`, stopping once four
layers are selected. -/
def searchLoop (config : Catalog) : List String → List String → List String
  | [], sel => sel
  | part :: rest, sel =>
      if 4 ≤ (searchPick config part sel).length then searchPick config part sel
      else searchLoop config rest (searchPick config part sel)

/-- The base-layer enforcement block at the end of `_search_layers`
(lines 200–205): insert a preferred true-color id at the front when the
query hints at true color or exactly one layer was picked, and no selected
id carries the marker yet. -/
def enforceTrueColor (config : Catalog) (query : String) (selRaw : List String) : List String :=
  if (pyContains (pyLower query) "true color" || selRaw.length = 1)
      && !(selRaw.any (fun lid => pyContains lid trueColorMarker)) then
    match prefer_true_color config with
    | some tc => if tc ≠ "" ∧ tc ∉ selRaw then tc :: selRaw else selRaw
    | none => selRaw
  else selRaw

/-- `_search_layers(config, query)` with the default `max_layers = 4`. -/
def search_layers (config : Catalog) (query : String) : List String :=
  if config = [] then []
  else
    (enforceTrueColor config query
      (searchLoop config (split_query_parts query) [])).take 4

/-! ### URL assembly and bbox inference -/

/-- `_build_worldview_url(layers, t, bbox)`. -/
def build_worldview_url (layers : List String) (t : String) (bbox : Option String) : String :=
  let params :=
    (if layers = [] then [] else ["l=" ++ pyJoin "," layers]) ++
    ["t=" ++ t, "v=" ++ pyOr bbox defaultBbox]
  WV_BASE ++ "?" ++ pyJoin "&" params

/-- The hint scan of `_infer_bbox`: the first hint whose key occurs in the
lower-cased query. -/
def bboxHintScan (query : String) : Option String :=
  (BBOX_HINTS.find? (fun e => pyContains (pyLower query) e.1)).map (·.2)

/-- `_infer_bbox(query, provided)`; an explicit truthy value wins. -/
def infer_bbox (query : String) (provided : Option String) : Option String :=
  match provided with
  | some s => if s = "" then bboxHintScan query else some s
  | none => bboxHintScan query

/-! ### Date normalization (`_iso_date`)

Python's `datetime` is modelled with a civil-time record plus the standard
civil/epoch-day conversion; the host's local timezone (consulted by
`astimezone` on a naive datetime) is modelled as a fixed UTC offset in
minutes passed explicitly. -/

/-- A civil date-time, as Python's `datetime` fields. -/
structure CivilDT where
  year : Int
  month : Nat
  day : Nat
  hour : Nat
  minute : Nat
  second : Nat
deriving DecidableEq, Repr

/-- Days since 1970-01-01 for a civil date (standard civil-from-days
algorithm, as the `datetime` ordinal arithmetic computes). -/
def daysFromCivil (y : Int) (m d : Nat) : Int :=
  let y2 : Int := if m ≤ 2 then y - 1 else y
  let era : Int := y2.ediv 400
  let yoe : Nat := (y2 - era * 400).toNat
  let mp : Nat := (m + 9) % 12
  let doy : Nat := (153 * mp + 2) / 5 + d - 1
  let doe : Nat := yoe * 365 + yoe / 4 - yoe / 100 + doy
  era * 146097 + (doe : Int) - 719468

/-- Civil date from days since 1970-01-01 (inverse of `daysFromCivil`). -/
def civilFromDays (z0 : Int) : Int × Nat × Nat :=
  let z : Int := z0 + 719468
  let era : Int := z.ediv 146097
  let doe : Nat := (z - era * 146097).toNat
  let yoe : Nat := (doe - doe / 1460 + doe / 36524 - doe / 146096) / 365
  let y : Int := (yoe : Int) + era * 400
  let doy : Nat := doe - (365 * yoe + yoe / 4 - yoe / 100)
  let mp : Nat := (5 * doy + 2) / 153
  let d : Nat := doy - (153 * mp + 2) / 5 + 1
  let m : Nat := if mp < 10 then mp + 3 else mp - 9
  (if m ≤ 2 then y + 1 else y, m, d)

/-- Gregorian leap-year test. -/
def isLeapYear (y : Int) : Bool :=
  y.emod 4 = 0 && (y.emod 100 ≠ 0 || y.emod 400 = 0)

/-- Days in a month, as `datetime` validates them. -/
def daysInMonth (y : Int) (m : Nat) : Nat :=
  if m = 2 then (if isLeapYear y then 29 else 28)
  else if m = 4 ∨ m = 6 ∨ m = 9 ∨ m = 11 then 30
  else 31

/-- One decimal digit. -/
def digitVal (c : Char) : Option Nat :=
  if '0' ≤ c ∧ c ≤ '9' then some (c.toNat - 48) else none

/-- Two decimal digits. -/
def twoDigits (a b : Char) : Option Nat := do
  let x ← digitVal a
  let y ← digitVal b
  pure (10 * x + y)

/-- Four decimal digits. -/
def fourDigits (a b c d : Char) : Option Nat := do
  let x ← twoDigits a b
  let y ← twoDigits c d
  pure (100 * x + y)

/-- The optional `±HH:MM` offset tail of an ISO instant, in minutes.
`some none` means a naive datetime (no offset present). -/
def parseOffsetTail : List Char → Option (Option Int)
  | [] => some none
  | '+' :: h1 :: h2 :: ':' :: m1 :: m2 :: [] => do
      let hh ← twoDigits h1 h2
      let mm ← twoDigits m1 m2
      if hh ≤ 23 ∧ mm ≤ 59 then pure (some ((hh : Int) * 60 + mm)) else none
  | '-' :: h1 :: h2 :: ':' :: m1 :: m2 :: [] => do
      let hh ← twoDigits h1 h2
      let mm ← twoDigits m1 m2
      if hh ≤ 23 ∧ mm ≤ 59 then pure (some (-((hh : Int) * 60 + mm))) else none
  | _ => none

/-- Modelled from the spec and the source's doc comment: the common ISO
forms `datetime.fromisoformat` accepts here, namely
`YYYY-MM-DDTHH:MM:SS` with an optional `±HH:MM` offset, with the same
field validation (`fromisoformat` itself is Python library code, not part
of this repository).  Returns the civil fields and the parsed offset
(`none` inside the pair for a naive datetime). -/
def parseIso (l : List Char) : Option (CivilDT × Option Int) :=
  match l with
  | y1 :: y2 :: y3 :: y4 :: '-' :: a1 :: a2 :: '-' :: b1 :: b2 :: 'T' ::
    h1 :: h2 :: ':' :: i1 :: i2 :: ':' :: s1 :: s2 :: rest => do
      let y ← fourDigits y1 y2 y3 y4
      let mo ← twoDigits a1 a2
      let dd ← twoDigits b1 b2
      let hh ← twoDigits h1 h2
      let mi ← twoDigits i1 i2
      let ss ← twoDigits s1 s2
      let off ← parseOffsetTail rest
      if 1 ≤ y ∧ 1 ≤ mo ∧ mo ≤ 12 ∧ 1 ≤ dd ∧ dd ≤ daysInMonth (y : Int) mo ∧
         hh ≤ 23 ∧ mi ≤ 59 ∧ ss ≤ 59 then
        pure (⟨(y : Int), mo, dd, hh, mi, ss⟩, off)
      else none
  | _ => none

/-- Shift a civil datetime by subtracting an offset in minutes — the UTC
conversion `parsed.astimezone(timezone.utc)` performs. -/
def toUtc (dt : CivilDT) (offMin : Int) : CivilDT :=
  let days := daysFromCivil dt.year dt.month dt.day
  let total : Int := days * 1440 + (dt.hour : Int) * 60 + (dt.minute : Int) - offMin
  let d2 := total.ediv 1440
  let rem := (total.emod 1440).toNat
  let ymd := civilFromDays d2
  ⟨ymd.1, ymd.2.1, ymd.2.2, rem / 60, rem % 60, dt.second⟩

/-- Zero-padded decimal rendering of a natural number to width `w`. -/
def padNum (w n : Nat) : String :=
  let s := toString n
  ⟨List.replicate (w - s.length) '0'⟩ ++ s

/-- `%Y` rendering of a year. -/
def yearStr (y : Int) : String :=
  if y < 0 then "-" ++ padNum 4 y.natAbs else padNum 4 y.toNat

/-- `now.strftime("%Y-%m-%dT00:00:00Z")`: the today fallback. -/
def fmtToday (now : CivilDT) : String :=
  yearStr now.year ++ "-" ++ padNum 2 now.month ++ "-" ++ padNum 2 now.day ++ "T00:00:00Z"

/-- `parsed.strftime("%Y-%m-%dT%H:%M:%SZ")`. -/
def fmtFull (dt : CivilDT) : String :=
  yearStr dt.year ++ "-" ++ padNum 2 dt.month ++ "-" ++ padNum 2 dt.day ++ "T" ++
  padNum 2 dt.hour ++ ":" ++ padNum 2 dt.minute ++ ":" ++ padNum 2 dt.second ++ "Z"

/-- `_iso_date(dt)`.  `tz` is the host's local-timezone offset in minutes
(applied when `astimezone` converts a naive datetime), `now` the current
UTC civil time.  Any parse failure — including the out-of-range overflow
`astimezone` raises, which the source's `except` swallows — falls back to
today at midnight. -/
def iso_date (tz : Int) (now : CivilDT) (dt : Option String) : String :=
  match dt with
  | none => fmtToday now
  | some s =>
      if s = "" then fmtToday now
      else
        let parsed :=
          if pyContains s "T" then parseIso (pyReplace s "Z" "+00:00")
          else parseIso (s ++ "T00:00:00+00:00").data
        match parsed with
        | none => fmtToday now
        | some (dtv, offOpt) =>
            let offs := match offOpt with
              | some o => o
              | none => tz
            let utc := toUtc dtv offs
            if utc.year < 1 ∨ 9999 < utc.year then fmtToday now
            else fmtFull utc

/-! ### The tool entry point (`worldview_link`) -/

/-- The heuristic merge loop of `worldview_link` (lines 266–271): append
unseen heuristic ids, stopping after the append that reaches four. -/
def mergeHeuristic : List String → List String → List String
  | sel, [] => sel
  | sel, lid :: rest =>
      if lid ∈ sel then mergeHeuristic sel rest
      else if 4 ≤ (sel ++ [lid]).length then sel ++ [lid]
      else mergeHeuristic (sel ++ [lid]) rest

/-- The try/except around the catalog fetch and search in `worldview_link`
(lines 255–264): the kept `config` value and the initial selection, with
the empty-search and fetch-failure fallbacks applied. -/
def wvFetched (catalogOpt : Option Catalog) (query : String) :
    Option Catalog × List String :=
  match catalogOpt with
  | some config =>
      (some config,
        if search_layers config query = [] then [defaultTrueColorId]
        else search_layers config query)
  | none => (none, [defaultTrueColorId])

/-- The true-color block of `worldview_link` (lines 273–282). -/
def wvEnforce (configOpt : Option Catalog) (query : String) (sel1 : List String) :
    List String :=
  if !(sel1.any (fun lid => pyContains lid trueColorMarker))
      && (pyContains (pyLower query) "true color" || sel1.length = 1) then
    match (match configOpt with
           | some config => prefer_true_color config
           | none => some defaultTrueColorId) with
    | some t => if t ≠ "" ∧ t ∉ sel1 then t :: sel1 else sel1
    | none => sel1
  else sel1

/-- The search-path selection of `worldview_link` (its `else` branch plus
the true-color block), before the final truncation.  `catalogOpt = none`
models the catalog fetch raising. -/
def wvSelectionCore (catalogOpt : Option Catalog) (query : String) : List String :=
  wvEnforce (wvFetched catalogOpt query).1 query
    (mergeHeuristic (wvFetched catalogOpt query).2 (offline_select_from_query query))

/-- The layer list `worldview_link` embeds in the URL: explicit layers win
verbatim when non-empty, otherwise the search path runs; either way the
result is truncated to four entries. -/
def wvSelection (catalogOpt : Option Catalog) (query : String)
    (layers : Option (List String)) : List String :=
  (match layers with
   | some ls => if ls = [] then wvSelectionCore catalogOpt query else ls
   | none => wvSelectionCore catalogOpt query).take 4

/-- `worldview_link(query, date, bbox, layers)` with the ambient effects
explicit: `tz`/`now` feed `_iso_date`, `catalogOpt` is the fetch outcome. -/
def worldview_link (tz : Int) (now : CivilDT) (catalogOpt : Option Catalog)
    (query : String) (date : Option String) (bbox : Option String)
    (layers : Option (List String)) : String :=
  build_worldview_url (wvSelection catalogOpt query layers) (iso_date tz now date)
    (infer_bbox query bbox)

end Worldview

namespace Graph

/-! ### The bounded tool-invocation loop (`llm_node` in `graph.py`)

The language model is an opaque function from a transcript to an assistant
reply; tools are registered in a map from name to handler, a handler
returning `Except` so that a captured execution failure is explicit. -/

/-- Arguments of the one registered tool, typed as `worldview_link` takes
them. -/
structure ToolArgs where
  query : String
  date : Option String
  bbox : Option String
  layers : Option (List String)
deriving DecidableEq, Repr

/-- A tool-call request emitted by the model inside an assistant reply. -/
structure ToolCall where
  name : String
  args : ToolArgs
  id : String
deriving DecidableEq, Repr

/-- An assistant reply: text plus requested tool calls. -/
structure AIReply where
  content : String
  tool_calls : List ToolCall
deriving DecidableEq, Repr

/-- A tool-result message, correlated to its request by call id. -/
structure ToolMsg where
  content : String
  tool_call_id : String
deriving DecidableEq, Repr

/-- Transcript messages: system/human turns, assistant replies, tool
results. -/
inductive Msg where
  | other : String → Msg
  | ai : AIReply → Msg
  | tool : ToolMsg → Msg
deriving DecidableEq, Repr

/-- A tool registry, as `name_to_tool.get`. -/
def Registry := String → Option (ToolArgs → Except String String)

/-- The content of one tool invocation's result message: the returned
string on success, the `f"Tool error: {e}"` rendering on failure. -/
def execContent (f : ToolArgs → Except String String) (a : ToolArgs) : String :=
  match f a with
  | .ok r => r
  | .error e => "Tool error: " ++ e

/-- The per-round tool-message accumulation loop of `llm_node`: unknown
names are skipped, known tools contribute one result message each, in
emission order. -/
def processToolCalls (reg : Registry) (tcs : List ToolCall) : List ToolMsg :=
  tcs.foldl (fun acc tc =>
    match reg tc.name with
    | none => acc
    | some f => acc ++ [⟨execContent f tc.args, tc.id⟩]) []

/-- What the `while` loop of `llm_node` has produced when it stops. -/
structure LoopOut where
  resp : AIReply
  newMsgs : List Msg
  rounds : Nat
deriving Repr

/-- The `while` loop of `llm_node`.  `fuel` is `max_tool_rounds - rounds`,
so the loop condition `rounds < max_tool_rounds` is `fuel > 0`; each
iteration performs exactly one further model invocation and increments
`rounds`.  An iteration whose round produced no tool message hits the
source's `break` and returns without re-invoking the model. -/
def toolLoop (invoke : List Msg → AIReply) (reg : Registry) :
    Nat → List Msg → List Msg → AIReply → Nat → LoopOut
  | 0, _, newMsgs, resp, rounds => ⟨resp, newMsgs, rounds⟩
  | Nat.succ fuel, transcript, newMsgs, resp, rounds =>
      if resp.tool_calls = [] then ⟨resp, newMsgs, rounds⟩
      else if (processToolCalls reg resp.tool_calls).map Msg.tool = [] then
        ⟨resp, newMsgs, rounds⟩
      else
        toolLoop invoke reg fuel
          (transcript ++ (processToolCalls reg resp.tool_calls).map Msg.tool
            ++ [Msg.ai (invoke (transcript
                  ++ (processToolCalls reg resp.tool_calls).map Msg.tool))])
          (newMsgs ++ (processToolCalls reg resp.tool_calls).map Msg.tool
            ++ [Msg.ai (invoke (transcript
                  ++ (processToolCalls reg resp.tool_calls).map Msg.tool))])
          (invoke (transcript ++ (processToolCalls reg resp.tool_calls).map Msg.tool))
          (rounds + 1)

/-- `llm_node`'s loop on a non-empty incoming transcript: first model call,
then the bounded tool rounds with `max_tool_rounds = 3`. -/
def llmLoop (invoke : List Msg → AIReply) (reg : Registry) (messages : List Msg) : LoopOut :=
  let resp := invoke messages
  toolLoop invoke reg 3 (messages ++ [Msg.ai resp]) [Msg.ai resp] resp 0

/-- `llm_node(state)`: returns the appended messages and the final text. -/
def llm_node (invoke : List Msg → AIReply) (reg : Registry) (messages : List Msg) :
    List Msg × String :=
  if messages = [] then ([], "")
  else ((llmLoop invoke reg messages).newMsgs, (llmLoop invoke reg messages).resp.content)

/-- The registry `llm_node` builds: `worldview_link` is the sole tool, and
its embedded execution is total, so it always returns `.ok`. -/
def worldviewRegistry (tz : Int) (now : Worldview.CivilDT)
    (catalogOpt : Option Worldview.Catalog) : Registry :=
  fun name =>
    if name = "worldview_link" then
      some (fun a => .ok (Worldview.worldview_link tz now catalogOpt a.query a.date a.bbox a.layers))
    else none

end Graph

namespace Worldview

/-! ### Properties of the stable descending sort and the per-part pick -/

theorem head_insertDesc (a : Nat × String) (s : List (Nat × String)) :
    (insertDesc a s).head? =
      some (match s.head? with
            | none => a
            | some b => if b.1 ≤ a.1 then a else b) := by
  cases s with
  | nil => rfl
  | cons b t => by_cases h : b.1 ≤ a.1 <;> simp [insertDesc, h]

theorem head_sortDesc (l : List (Nat × String)) :
    (sortDesc l).head? = firstMax l := by
  induction l with
  | nil => rfl
  | cons a t ih =>
      rw [sortDesc, head_insertDesc, ih]
      cases h : firstMax t with
      | none => simp [firstMax, h]
      | some b => by_cases hba : b.1 ≤ a.1 <;> simp [firstMax, h, hba]

theorem firstMax_none {l : List (Nat × String)} (h : firstMax l = none) : l = [] := by
  cases l with
  | nil => rfl
  | cons a t =>
      rw [firstMax] at h
      cases ht : firstMax t <;> simp [ht] at h
      split at h <;> simp at h

theorem firstMax_max {l : List (Nat × String)} {b : Nat × String}
    (h : firstMax l = some b) : ∀ p ∈ l, p.1 ≤ b.1 := by
  induction l generalizing b with
  | nil => simp [firstMax] at h
  | cons a t ih =>
      rw [firstMax] at h
      cases ht : firstMax t with
      | none =>
          rw [ht] at h
          obtain rfl : a = b := by simpa using h
          have : t = [] := firstMax_none ht
          subst this
          simp
      | some c =>
          rw [ht] at h
          by_cases hca : c.1 ≤ a.1
          · obtain rfl : a = b := by simpa [hca] using h
            intro p hp
            rcases List.mem_cons.mp hp with rfl | hp
            · exact le_refl _
            · exact le_trans (ih ht p hp) hca
          · obtain rfl : c = b := by simpa [hca] using h
            intro p hp
            rcases List.mem_cons.mp hp with rfl | hp
            · exact le_of_lt (Nat.lt_of_not_le hca)
            · exact ih ht p hp

theorem firstMax_earliest {l : List (Nat × String)} {b : Nat × String}
    (h : firstMax l = some b) :
    ∃ pre post, l = pre ++ b :: post ∧ ∀ p ∈ pre, p.1 < b.1 := by
  induction l generalizing b with
  | nil => simp [firstMax] at h
  | cons a t ih =>
      rw [firstMax] at h
      cases ht : firstMax t with
      | none =>
          rw [ht] at h
          obtain rfl : a = b := by simpa using h
          exact ⟨[], t, rfl, by simp⟩
      | some c =>
          rw [ht] at h
          by_cases hca : c.1 ≤ a.1
          · obtain rfl : a = b := by simpa [hca] using h
            exact ⟨[], t, rfl, by simp⟩
          · obtain rfl : c = b := by simpa [hca] using h
            obtain ⟨pre, post, hdec, hpre⟩ := ih ht
            refine ⟨a :: pre, post, by simp [hdec], ?_⟩
            intro p hp
            rcases List.mem_cons.mp hp with rfl | hp
            · exact Nat.lt_of_not_le hca
            · exact hpre p hp

theorem scoresOf_pos (config : Catalog) (part : String) :
    ∀ p ∈ scoresOf config part, 0 < p.1 := by
  intro p hp
  rw [scoresOf, List.mem_filterMap] at hp
  obtain ⟨e, _, he⟩ := hp
  by_cases h : 0 < score_layer e.1 e.2 part
  · simp only [h, if_true] at he
    obtain rfl : (score_layer e.1 e.2 part, e.1) = p := by simpa using he
    exact h
  · simp [h] at he

/-- C6.  For every catalog and query phrase, the per-phrase best-layer
pick — the head of the stably sorted positive-score candidate list used by
`_search_layers` — exists exactly when some layer scores above zero, has a
strictly positive score, scores at least as high as every candidate, and
is the earliest such candidate in catalog iteration order (everything
before it in `scoresOf` scores strictly lower).  Being a function of the
catalog and phrase alone, the pick is deterministic. -/
theorem c6_select_best_max_earliest (config : Catalog) (part : String) :
    match (sortedScores config part).head? with
    | none => scoresOf config part = []
    | some b =>
        0 < b.1 ∧ (∀ p ∈ scoresOf config part, p.1 ≤ b.1) ∧
        ∃ pre post, scoresOf config part = pre ++ b :: post ∧ ∀ p ∈ pre, p.1 < b.1 := by
  have hh : (sortedScores config part).head? = firstMax (scoresOf config part) :=
    head_sortDesc _
  rw [hh]
  cases h : firstMax (scoresOf config part) with
  | none => exact firstMax_none h
  | some b =>
      obtain ⟨pre, post, hdec, hpre⟩ := firstMax_earliest h
      refine ⟨?_, firstMax_max h, pre, post, hdec, hpre⟩
      have hb : b ∈ scoresOf config part := by
        rw [hdec]
        exact List.mem_append_right _ (List.mem_cons_self _ _)
      exact scoresOf_pos config part b hb

/-! ### Query partitioning: the separator bug and successive stripping -/

/-- C2.  The separator composition the spec describes does not happen: on
the docstring's own example `"true color + smoke"` the code returns the
phrase unsplit, because `parts = tmp` is only assigned after the separator
loop, so solely the final separator `" & "` takes effect, while the
spec-worded successive split would yield `["true color", "smoke"]`. -/
theorem c2_split_only_last_separator :
    split_query_parts "true color + smoke" = ["true color + smoke"]
  ∧ splitPartsSuccessiveSpec "true color + smoke" = ["true color", "smoke"]
  ∧ split_query_parts "fires, dust and snow" = ["fires, dust and snow"] := by
  refine ⟨by decide, by decide, by decide⟩

theorem stripFold_decomposition (pl : List (List Char)) :
    ∀ p : List Char, ∃ qs : List (List Char),
      qs.Sublist pl ∧ p = qs.flatten ++ stripFold pl p := by
  induction pl with
  | nil => intro p; exact ⟨[], List.Sublist.refl _, by simp [stripFold]⟩
  | cons q rest ih =>
      intro p
      rw [stripFold]
      by_cases h : q.isPrefixOf p
      · obtain ⟨t, rfl⟩ := (List.isPrefixOf_iff_prefix.mp h)
        rw [if_pos h, List.drop_left]
        obtain ⟨ql, hsub, hdec⟩ := ih t
        exact ⟨q :: ql, List.Sublist.cons₂ q hsub, by simp [← hdec]⟩
      · rw [if_neg h]
        obtain ⟨ql, hsub, hdec⟩ := ih p
        exact ⟨ql, List.Sublist.cons _ hsub, hdec⟩

/-- C4 counterexample.  On the phrase `"show in paris"` the code strips
two connectors in sequence (`"show "`, then `"in "`), returning
`["paris"]`, whereas the claimed at-most-one strip (first match wins)
leaves `"in paris"`. -/
theorem c4_counterexample :
    split_query_parts "show in paris" = ["paris"]
  ∧ stripConnectorsOnceSpec "show in paris".data = "in paris".data
  ∧ stripConnectors "show in paris".data = "paris".data := by
  refine ⟨by decide, by decide, by decide⟩

/-- C4, amended.  Each connector in the enumerated list is tested once, in
order, against the phrase as stripped so far, so what is removed from the
front of a phrase is the concatenation of some subsequence of the
connector list (possibly several connectors, each at most once, in
enumeration order) — not at most one connector. -/
theorem c4_successive_strips (p : List Char) :
    ∃ qs : List (List Char),
      qs.Sublist connectorPrefixesData ∧ p = qs.flatten ++ stripConnectors p :=
  stripFold_decomposition connectorPrefixesData p

/-! ### Date normalization depends on the host timezone for naive inputs -/

/-- C10.  A date argument of the form `YYYY-MM-DDTHH:MM:SS` — no trailing
`Z`, no explicit offset — parses as a naive datetime, which `astimezone`
interprets in the host's local timezone before converting to UTC: the same
input string normalizes differently under host offsets 0 and +60 minutes,
so `_iso_date` is not a function of the input string alone. -/
theorem c10_tz_dependence :
    iso_date 0 ⟨2026, 10, 12, 5, 4, 3⟩ (some "2024-06-15T12:30:00")
        = "2024-06-15T12:30:00Z"
  ∧ iso_date 60 ⟨2026, 10, 12, 5, 4, 3⟩ (some "2024-06-15T12:30:00")
        = "2024-06-15T11:30:00Z"
  ∧ iso_date 0 ⟨2026, 10, 12, 5, 4, 3⟩ (some "2024-06-15T12:30:00")
        ≠ iso_date 60 ⟨2026, 10, 12, 5, 4, 3⟩ (some "2024-06-15T12:30:00") := by
  refine ⟨by decide, by decide, by decide⟩

/-! ### Invariants of the selection pipeline -/

theorem firstNotIn_not_mem :
    ∀ (l : List (Nat × String)) (sel : List String) (lid : String),
      firstNotIn l sel = some lid → lid ∉ sel := by
  intro l
  induction l with
  | nil => intro sel lid h; simp [firstNotIn] at h
  | cons a rest ih =>
      intro sel lid h
      obtain ⟨s, x⟩ := a
      rw [firstNotIn] at h
      by_cases hx : x ∈ sel
      · rw [if_pos hx] at h
        exact ih sel lid h
      · rw [if_neg hx] at h
        obtain rfl : x = lid := by simpa using h
        exact hx

theorem nodup_append_singleton {sel : List String} {lid : String}
    (h : sel.Nodup) (hm : lid ∉ sel) : (sel ++ [lid]).Nodup := by
  rw [List.nodup_append]
  refine ⟨h, List.nodup_singleton _, ?_⟩
  intro a ha hb
  rw [List.mem_singleton] at hb
  subst hb
  exact hm ha

theorem searchPick_length (config : Catalog) (part : String) (sel : List String) :
    (searchPick config part sel).length ≤ sel.length + 1 := by
  rw [searchPick]
  cases hfn : firstNotIn (sortedScores config part) sel <;> simp

theorem searchPick_nodup (config : Catalog) (part : String) {sel : List String}
    (h : sel.Nodup) : (searchPick config part sel).Nodup := by
  rw [searchPick]
  cases hfn : firstNotIn (sortedScores config part) sel with
  | none => exact h
  | some lid => exact nodup_append_singleton h (firstNotIn_not_mem _ _ _ hfn)

theorem searchLoop_length (config : Catalog) :
    ∀ (parts sel : List String), sel.length ≤ 3 →
      (searchLoop config parts sel).length ≤ 4 := by
  intro parts
  induction parts with
  | nil => intro sel h; rw [searchLoop]; omega
  | cons part rest ih =>
      intro sel h
      rw [searchLoop]
      have hp := searchPick_length config part sel
      split
      · omega
      · exact ih _ (by omega)

theorem searchLoop_nodup (config : Catalog) :
    ∀ (parts : List String) {sel : List String}, sel.Nodup →
      (searchLoop config parts sel).Nodup := by
  intro parts
  induction parts with
  | nil => intro sel h; rw [searchLoop]; exact h
  | cons part rest ih =>
      intro sel h
      rw [searchLoop]
      split
      · exact searchPick_nodup config part h
      · exact ih (searchPick_nodup config part h)

theorem mergeHeuristic_eq_append :
    ∀ (h sel : List String), ∃ ex, mergeHeuristic sel h = sel ++ ex := by
  intro h
  induction h with
  | nil => intro sel; exact ⟨[], by rw [mergeHeuristic]; simp⟩
  | cons lid rest ih =>
      intro sel
      rw [mergeHeuristic]
      by_cases hm : lid ∈ sel
      · rw [if_pos hm]
        exact ih sel
      · rw [if_neg hm]
        split
        · exact ⟨[lid], rfl⟩
        · obtain ⟨ex, hex⟩ := ih (sel ++ [lid])
          exact ⟨lid :: ex, by rw [hex]; simp⟩

theorem mergeHeuristic_nodup :
    ∀ (h : List String) {sel : List String}, sel.Nodup →
      (mergeHeuristic sel h).Nodup := by
  intro h
  induction h with
  | nil => intro sel hs; rw [mergeHeuristic]; exact hs
  | cons lid rest ih =>
      intro sel hs
      rw [mergeHeuristic]
      by_cases hm : lid ∈ sel
      · rw [if_pos hm]
        exact ih hs
      · rw [if_neg hm]
        split
        · exact nodup_append_singleton hs hm
        · exact ih (nodup_append_singleton hs hm)

theorem enforceTrueColor_nodup (config : Catalog) (query : String)
    {selRaw : List String} (h : selRaw.Nodup) :
    (enforceTrueColor config query selRaw).Nodup := by
  rw [enforceTrueColor]
  split
  · split
    · next tc heq =>
        split
        · next hguard => exact List.nodup_cons.mpr ⟨hguard.2, h⟩
        · exact h
    · exact h
  · exact h

theorem search_layers_length (config : Catalog) (query : String) :
    (search_layers config query).length ≤ 4 := by
  rw [search_layers]
  split
  · simp
  · rw [List.length_take]
    exact min_le_left _ _

theorem search_layers_nodup (config : Catalog) (query : String) :
    (search_layers config query).Nodup := by
  rw [search_layers]
  split
  · exact List.nodup_nil
  · exact List.Nodup.sublist (List.take_sublist _ _)
      (enforceTrueColor_nodup config query
        (searchLoop_nodup config _ List.nodup_nil))

theorem wvEnforce_nodup (configOpt : Option Catalog) (query : String)
    {sel1 : List String} (h : sel1.Nodup) :
    (wvEnforce configOpt query sel1).Nodup := by
  unfold wvEnforce
  split
  · split
    · next t heq =>
        split
        · next hguard => exact List.nodup_cons.mpr ⟨hguard.2, h⟩
        · exact h
    · exact h
  · exact h

theorem wvEnforce_ne_nil (configOpt : Option Catalog) (query : String)
    {sel1 : List String} (h : sel1 ≠ []) :
    wvEnforce configOpt query sel1 ≠ [] := by
  unfold wvEnforce
  split
  · split
    · next t heq =>
        split
        · exact List.cons_ne_nil _ _
        · exact h
    · exact h
  · exact h

theorem wvEnforce_eq_of_marker (configOpt : Option Catalog) (query : String)
    {sel1 : List String}
    (hm : sel1.any (fun lid => pyContains lid trueColorMarker) = true) :
    wvEnforce configOpt query sel1 = sel1 := by
  unfold wvEnforce
  simp [hm]

theorem wvFetched_snd_ne_nil (catalogOpt : Option Catalog) (query : String) :
    (wvFetched catalogOpt query).2 ≠ [] := by
  unfold wvFetched
  cases catalogOpt with
  | none => simp
  | some config =>
      by_cases hs : search_layers config query = [] <;> simp [hs]

theorem wvFetched_snd_length (catalogOpt : Option Catalog) (query : String) :
    (wvFetched catalogOpt query).2.length ≤ 4 := by
  unfold wvFetched
  cases catalogOpt with
  | none => simp
  | some config =>
      by_cases hs : search_layers config query = [] <;>
        simp [hs, search_layers_length]

theorem wvFetched_snd_nodup (catalogOpt : Option Catalog) (query : String) :
    (wvFetched catalogOpt query).2.Nodup := by
  unfold wvFetched
  cases catalogOpt with
  | none => simp
  | some config =>
      by_cases hs : search_layers config query = [] <;>
        simp [hs, search_layers_nodup]

theorem wvSelectionCore_nodup (catalogOpt : Option Catalog) (query : String) :
    (wvSelectionCore catalogOpt query).Nodup :=
  wvEnforce_nodup _ _
    (mergeHeuristic_nodup _ (wvFetched_snd_nodup catalogOpt query))

theorem wvSelectionCore_ne_nil (catalogOpt : Option Catalog) (query : String) :
    wvSelectionCore catalogOpt query ≠ [] := by
  refine wvEnforce_ne_nil _ _ ?_
  obtain ⟨ex, hex⟩ := mergeHeuristic_eq_append (offline_select_from_query query)
    (wvFetched catalogOpt query).2
  rw [hex]
  intro hcon
  exact wvFetched_snd_ne_nil catalogOpt query (List.append_eq_nil.mp hcon).1

theorem take4_ne_nil {l : List String} (h : l ≠ []) : l.take 4 ≠ [] := by
  cases l with
  | nil => exact absurd rfl h
  | cons a t => simp

theorem wvSelection_ne_nil (catalogOpt : Option Catalog) (query : String)
    (layers : Option (List String)) :
    wvSelection catalogOpt query layers ≠ [] := by
  unfold wvSelection
  cases layers with
  | none => exact take4_ne_nil (wvSelectionCore_ne_nil catalogOpt query)
  | some ls =>
      show List.take 4 (if ls = [] then wvSelectionCore catalogOpt query else ls) ≠ []
      by_cases hls : ls = []
      · rw [if_pos hls]
        exact take4_ne_nil (wvSelectionCore_ne_nil catalogOpt query)
      · rw [if_neg hls]
        exact take4_ne_nil hls

/-! ### C1: the embedded layer list is short and duplicate-free -/

/-- C1 counterexample.  The claim quantifies over every `layers` argument,
but explicit layers are copied verbatim: `layers=["A","A"]` yields the
layer list `["A","A"]`, which has a duplicate. -/
theorem c1_counterexample :
    wvSelection none "any query" (some ["A", "A"]) = ["A", "A"]
  ∧ ¬ (wvSelection none "any query" (some ["A", "A"])).Nodup := by
  refine ⟨by decide, by decide⟩

/-- C1, amended.  Provided the explicit `layers` argument, when supplied,
is itself duplicate-free (in particular when it is absent), the layer list
embedded in the returned URL has length at most 4 and no duplicate ids —
and it is embedded in decision order, being passed to the URL builder
exactly as decided. -/
theorem c1_selection_bounded_nodup (tz : Int) (now : CivilDT)
    (catalogOpt : Option Catalog) (query : String) (date bbox : Option String)
    (layers : Option (List String))
    (h : ∀ ls, layers = some ls → ls.Nodup) :
    (wvSelection catalogOpt query layers).length ≤ 4
  ∧ (wvSelection catalogOpt query layers).Nodup
  ∧ worldview_link tz now catalogOpt query date bbox layers
      = build_worldview_url (wvSelection catalogOpt query layers)
          (iso_date tz now date) (infer_bbox query bbox) := by
  refine ⟨?_, ?_, rfl⟩
  · unfold wvSelection; rw [List.length_take]
    exact min_le_left _ _
  · unfold wvSelection
    refine List.Nodup.sublist (List.take_sublist _ _) ?_
    cases layers with
    | none => exact wvSelectionCore_nodup catalogOpt query
    | some ls =>
        show (if ls = [] then wvSelectionCore catalogOpt query else ls).Nodup
        by_cases hls : ls = []
        · rw [if_pos hls]
          exact wvSelectionCore_nodup catalogOpt query
        · rw [if_neg hls]
          exact h ls rfl

theorem c1_selection_bounded_nodup_witness :
    (wvSelection none "fires over california" none).length ≤ 4
  ∧ (wvSelection none "fires over california" none).Nodup
  ∧ worldview_link 0 ⟨2026, 1, 2, 3, 4, 5⟩ none "fires over california" none none none
      = build_worldview_url (wvSelection none "fires over california" none)
          (iso_date 0 ⟨2026, 1, 2, 3, 4, 5⟩ none)
          (infer_bbox "fires over california" none) :=
  c1_selection_bounded_nodup 0 ⟨2026, 1, 2, 3, 4, 5⟩ none "fires over california"
    none none none (fun _ h => nomatch h)

/-! ### C3: true-color enforcement -/

theorem preferred_marker :
    ∀ pid ∈ preferredTrueColorIds,
      pyContains pid trueColorMarker = true ∧ pid ≠ "" := by
  decide

theorem prefer_true_color_of_preferred {config : Catalog}
    (h : ∃ pid ∈ preferredTrueColorIds, ∃ e ∈ config, e.1 = pid) :
    ∃ pid₀, prefer_true_color config = some pid₀ ∧ pid₀ ∈ preferredTrueColorIds := by
  obtain ⟨pid, hpid, e, he, heq⟩ := h
  have hfind :
      (preferredTrueColorIds.find? (fun pid => config.any (fun e => e.1 = pid))).isSome := by
    rw [List.find?_isSome]
    refine ⟨pid, hpid, ?_⟩
    rw [List.any_eq_true]
    exact ⟨e, he, by simp [heq]⟩
  obtain ⟨pid₀, hp₀⟩ := Option.isSome_iff_exists.mp hfind
  refine ⟨pid₀, ?_, List.mem_of_find?_eq_some hp₀⟩
  rw [prefer_true_color, hp₀]

theorem search_layers_marker (config : Catalog) (query : String)
    (hq : pyContains (pyLower query) "true color" = true)
    (hpref : ∃ pid ∈ preferredTrueColorIds, ∃ e ∈ config, e.1 = pid)
    (hconfig : config ≠ []) :
    ∃ lid ∈ search_layers config query, pyContains lid trueColorMarker = true := by
  rw [search_layers, if_neg hconfig]
  have hlen : (searchLoop config (split_query_parts query) []).length ≤ 4 :=
    searchLoop_length config _ _ (by simp)
  by_cases hTc :
      (searchLoop config (split_query_parts query) []).any
        (fun lid => pyContains lid trueColorMarker) = true
  · have henf : enforceTrueColor config query
        (searchLoop config (split_query_parts query) [])
        = searchLoop config (split_query_parts query) [] := by
      rw [enforceTrueColor]
      simp [hTc]
    rw [henf, List.take_of_length_le hlen]
    obtain ⟨lid, hmem, hl⟩ := List.any_eq_true.mp hTc
    exact ⟨lid, hmem, hl⟩
  · obtain ⟨pid₀, hp₀, hp₀mem⟩ := prefer_true_color_of_preferred hpref
    obtain ⟨hmk, hne⟩ := preferred_marker pid₀ hp₀mem
    have hTc' : (searchLoop config (split_query_parts query) []).any
        (fun lid => pyContains lid trueColorMarker) = false :=
      Bool.eq_false_iff.mpr hTc
    have hnotin : pid₀ ∉ searchLoop config (split_query_parts query) [] :=
      fun hin => hTc (List.any_eq_true.mpr ⟨pid₀, hin, hmk⟩)
    have henf : enforceTrueColor config query
        (searchLoop config (split_query_parts query) [])
        = pid₀ :: searchLoop config (split_query_parts query) [] := by
      rw [enforceTrueColor, hp₀]
      simp [hq, hTc', hne, hnotin]
    rw [henf]
    exact ⟨pid₀, by simp, hmk⟩

theorem default_tc_marker : pyContains defaultTrueColorId trueColorMarker = true := by
  decide

theorem mem_take_append {a : String} {l₁ l₂ : List String} (ha : a ∈ l₁)
    (hl : l₁.length ≤ 4) : a ∈ (l₁ ++ l₂).take 4 := by
  rw [List.take_append_eq_append_take, List.take_of_length_le hl]
  exact List.mem_append_left _ ha

/-- C3 counterexample.  With the available catalog `{"X": {"title": "true
color"}}` and the query `"true color"`, the layer `"X"` wins the scoring,
`_prefer_true_color` finds nothing (no preferred id, no marker in `"X"`,
and `"True Color"` does not occur case-sensitively in the title), so the
final layer list is `["X"]`, which contains no true-color-marked id. -/
theorem c3_counterexample :
    wvSelection (some [("X", "true color")]) "true color" none = ["X"]
  ∧ pyContains "X" trueColorMarker = false
  ∧ pyContains (pyLower "true color") "true color" = true := by
  refine ⟨by decide, by decide, by decide⟩

/-- C3, amended.  For every query containing `"true color"`
(case-insensitively) and no explicit layers, the layer list of the
returned URL contains a true-color-marked id provided the catalog fetch
failed or the fetched catalog carries one of the three preferred
true-color ids; with an available catalog that lacks them, the insertion
can silently fail because `_prefer_true_color` returns nothing (or a
title-matched id without the marker). -/
theorem c3_true_color_amended (catalogOpt : Option Catalog) (query : String)
    (hq : pyContains (pyLower query) "true color" = true)
    (hcat : catalogOpt = none ∨
      ∃ config, catalogOpt = some config ∧
        ∃ pid ∈ preferredTrueColorIds, ∃ e ∈ config, e.1 = pid) :
    ∃ lid ∈ wvSelection catalogOpt query none,
      pyContains lid trueColorMarker = true := by
  have hbase : ∃ lid ∈ (wvFetched catalogOpt query).2,
      pyContains lid trueColorMarker = true := by
    rcases hcat with rfl | ⟨config, rfl, hpref⟩
    · exact ⟨defaultTrueColorId, by simp [wvFetched], default_tc_marker⟩
    · unfold wvFetched
      by_cases hs : search_layers config query = []
      · exact ⟨defaultTrueColorId, by simp [hs], default_tc_marker⟩
      · have hconfig : config ≠ [] := by
          intro hc
          exact hs (by rw [hc, search_layers, if_pos rfl])
        obtain ⟨lid, hmem, hl⟩ := search_layers_marker config query hq hpref hconfig
        exact ⟨lid, by simp [hs, hmem], hl⟩
  obtain ⟨lid, hmem, hl⟩ := hbase
  obtain ⟨ex, hex⟩ := mergeHeuristic_eq_append (offline_select_from_query query)
    (wvFetched catalogOpt query).2
  have hmem1 : lid ∈ mergeHeuristic (wvFetched catalogOpt query).2
      (offline_select_from_query query) := by
    rw [hex]
    exact List.mem_append_left _ hmem
  have hany : (mergeHeuristic (wvFetched catalogOpt query).2
      (offline_select_from_query query)).any
        (fun l => pyContains l trueColorMarker) = true :=
    List.any_eq_true.mpr ⟨lid, hmem1, hl⟩
  have hcore : wvSelectionCore catalogOpt query
      = mergeHeuristic (wvFetched catalogOpt query).2
          (offline_select_from_query query) := by
    unfold wvSelectionCore
    exact wvEnforce_eq_of_marker _ _ hany
  refine ⟨lid, ?_, hl⟩
  show lid ∈ wvSelection catalogOpt query none
  unfold wvSelection
  rw [hcore, hex]
  exact mem_take_append hmem (wvFetched_snd_length catalogOpt query)

theorem c3_true_color_amended_witness :
    ∃ lid ∈ wvSelection none "show true color" none,
      pyContains lid trueColorMarker = true :=
  c3_true_color_amended none "show true color" (by decide) (Or.inl rfl)

/-! ### C5 and C7: explicit layers and total well-formed URLs -/

theorem pyJoin_three (sep a b c : String) :
    pyJoin sep ([a] ++ [b, c]) = a ++ sep ++ b ++ sep ++ c := rfl

theorem pyJoin_two (sep a b : String) : pyJoin sep [a, b] = a ++ sep ++ b := rfl

theorem build_worldview_url_eq {sel : List String} (h : sel ≠ [])
    (t : String) (b : Option String) :
    build_worldview_url sel t b
      = WV_BASE ++ "?" ++ "l=" ++ pyJoin "," sel ++ "&" ++ "t=" ++ t
        ++ "&" ++ "v=" ++ pyOr b defaultBbox := by
  rw [build_worldview_url, if_neg h, pyJoin_three]
  simp only [String.append_assoc]

/-- C5.  With explicit `layers=[X, Y]` the URL's `l=` parameter is exactly
`X,Y` for every query, catalog outcome, date and bbox: the override
bypasses scoring, the heuristic fallback and true-color enforcement, while
the date and bbox parameters are still resolved normally (the query can
still influence the `v=` parameter through the bbox hints, but never the
layer list). -/
theorem c5_explicit_layers_exact (tz : Int) (now : CivilDT)
    (catalogOpt : Option Catalog) (query : String) (date bbox : Option String)
    (X Y : String) :
    worldview_link tz now catalogOpt query date bbox (some [X, Y])
      = WV_BASE ++ "?" ++ "l=" ++ X ++ "," ++ Y ++ "&" ++ "t=" ++ iso_date tz now date
        ++ "&" ++ "v=" ++ pyOr (infer_bbox query bbox) defaultBbox := by
  have hsel : wvSelection catalogOpt query (some [X, Y]) = [X, Y] := by
    unfold wvSelection
    simp
  rw [worldview_link, hsel, build_worldview_url_eq (by simp), pyJoin_two]
  simp only [String.append_assoc]

/-- C7.  `worldview_link` is a total function of its (typed) inputs —
catalog fetch failure, date parse failure and the no-match case are all
inside the definition as fallback branches — and its result is always the
well-formed URL `WV_BASE ? l=… & t=… & v=…` with a non-empty layer list,
the normalized date, and the resolved bbox. -/
theorem c7_total_wellformed_url (tz : Int) (now : CivilDT)
    (catalogOpt : Option Catalog) (query : String) (date bbox : Option String)
    (layers : Option (List String)) :
    ∃ sel : List String, sel ≠ []
      ∧ worldview_link tz now catalogOpt query date bbox layers
          = WV_BASE ++ "?" ++ "l=" ++ pyJoin "," sel ++ "&" ++ "t="
            ++ iso_date tz now date ++ "&" ++ "v="
            ++ pyOr (infer_bbox query bbox) defaultBbox := by
  refine ⟨wvSelection catalogOpt query layers,
    wvSelection_ne_nil catalogOpt query layers, ?_⟩
  rw [worldview_link,
    build_worldview_url_eq (wvSelection_ne_nil catalogOpt query layers)]

end Worldview


namespace Graph

/-! ### Properties of the tool-invocation loop -/

theorem processToolCalls_go (reg : Registry) :
    ∀ (tcs : List ToolCall) (acc : List ToolMsg),
      tcs.foldl (fun acc tc =>
        match reg tc.name with
        | none => acc
        | some f => acc ++ [⟨execContent f tc.args, tc.id⟩]) acc
      = acc ++ tcs.filterMap (fun tc =>
          (reg tc.name).map fun f => ⟨execContent f tc.args, tc.id⟩) := by
  intro tcs
  induction tcs with
  | nil => intro acc; simp
  | cons tc rest ih =>
      intro acc
      rw [List.foldl_cons, List.filterMap_cons]
      cases h : reg tc.name with
      | none => simp only [h]; rw [ih]; simp
      | some f => simp only [h, Option.map_some]; rw [ih]; simp

theorem processToolCalls_eq (reg : Registry) (tcs : List ToolCall) :
    processToolCalls reg tcs
      = tcs.filterMap (fun tc =>
          (reg tc.name).map fun f => ⟨execContent f tc.args, tc.id⟩) := by
  unfold processToolCalls
  rw [processToolCalls_go]
  simp

theorem toolLoop_rounds_le (invoke : List Msg → AIReply) (reg : Registry) :
    ∀ (fuel : Nat) (transcript newMsgs : List Msg) (resp : AIReply) (rounds : Nat),
      (toolLoop invoke reg fuel transcript newMsgs resp rounds).rounds ≤ rounds + fuel := by
  intro fuel
  induction fuel with
  | zero =>
      intro transcript newMsgs resp rounds
      rw [toolLoop]
      simp
  | succ fuel ih =>
      intro transcript newMsgs resp rounds
      rw [toolLoop]
      split
      · simp
      · split
        · simp
        · exact le_trans (ih _ _ _ _) (by omega)

theorem toolLoop_getLast (invoke : List Msg → AIReply) (reg : Registry) :
    ∀ (fuel : Nat) (transcript newMsgs : List Msg) (resp : AIReply) (rounds : Nat),
      newMsgs.getLast? = some (Msg.ai resp) →
      (toolLoop invoke reg fuel transcript newMsgs resp rounds).newMsgs.getLast?
        = some (Msg.ai (toolLoop invoke reg fuel transcript newMsgs resp rounds).resp) := by
  intro fuel
  induction fuel with
  | zero =>
      intro transcript newMsgs resp rounds h
      rw [toolLoop]
      exact h
  | succ fuel ih =>
      intro transcript newMsgs resp rounds h
      rw [toolLoop]
      split
      · exact h
      · split
        · exact h
        · exact ih _ _ _ _ (List.getLast?_concat _)

/-- C8.  Within one turn `llm_node` never performs more than 3 model
invocations beyond the first (`rounds` counts exactly the additional
invocations), the returned text is always the latest reply's content, and
the appended message list ends with that latest assistant reply — so when
the cap is reached while that reply still carries tool-call requests, no
tool result for them is ever emitted and its text is returned as is. -/
theorem c8_round_cap (invoke : List Msg → AIReply) (reg : Registry)
    (messages : List Msg) (h : messages ≠ []) :
    (llmLoop invoke reg messages).rounds ≤ 3
  ∧ (llm_node invoke reg messages).2 = (llmLoop invoke reg messages).resp.content
  ∧ (llmLoop invoke reg messages).newMsgs.getLast?
      = some (Msg.ai (llmLoop invoke reg messages).resp) := by
  refine ⟨?_, ?_, ?_⟩
  · have := toolLoop_rounds_le invoke reg 3 (messages ++ [Msg.ai (invoke messages)])
      [Msg.ai (invoke messages)] (invoke messages) 0
    simpa [llmLoop] using this
  · unfold llm_node
    rw [if_neg h]
  · unfold llmLoop
    exact toolLoop_getLast invoke reg 3 _ _ _ 0 (by simp)

theorem c8_round_cap_witness :
    (llmLoop (fun _ => ⟨"go", [⟨"worldview_link", ⟨"fires", none, none, none⟩, "c1"⟩]⟩)
        (worldviewRegistry 0 ⟨2026, 1, 1, 0, 0, 0⟩ none) [Msg.other "hi"]).rounds ≤ 3
  ∧ (llm_node (fun _ => ⟨"go", [⟨"worldview_link", ⟨"fires", none, none, none⟩, "c1"⟩]⟩)
        (worldviewRegistry 0 ⟨2026, 1, 1, 0, 0, 0⟩ none) [Msg.other "hi"]).2
      = (llmLoop (fun _ => ⟨"go", [⟨"worldview_link", ⟨"fires", none, none, none⟩, "c1"⟩]⟩)
          (worldviewRegistry 0 ⟨2026, 1, 1, 0, 0, 0⟩ none) [Msg.other "hi"]).resp.content
  ∧ (llmLoop (fun _ => ⟨"go", [⟨"worldview_link", ⟨"fires", none, none, none⟩, "c1"⟩]⟩)
        (worldviewRegistry 0 ⟨2026, 1, 1, 0, 0, 0⟩ none) [Msg.other "hi"]).newMsgs.getLast?
      = some (Msg.ai (llmLoop
          (fun _ => ⟨"go", [⟨"worldview_link", ⟨"fires", none, none, none⟩, "c1"⟩]⟩)
          (worldviewRegistry 0 ⟨2026, 1, 1, 0, 0, 0⟩ none) [Msg.other "hi"]).resp) :=
  c8_round_cap
    (fun _ => ⟨"go", [⟨"worldview_link", ⟨"fires", none, none, none⟩, "c1"⟩]⟩)
    (worldviewRegistry 0 ⟨2026, 1, 1, 0, 0, 0⟩ none) [Msg.other "hi"] (by decide)

/-- C9 counterexample.  A round whose every requested tool name is unknown
produces no tool message, so `llm_node` hits the `if not tool_messages:
break` line: the round counter stays at 0 and the model is never invoked
again, contradicting the claim that such a round still increments the
counter and re-invokes the model. -/
theorem c9_counterexample :
    (llmLoop (fun _ => ⟨"reply text", [⟨"mystery_tool", ⟨"q", none, none, none⟩, "c0"⟩]⟩)
        (worldviewRegistry 0 ⟨2026, 1, 1, 0, 0, 0⟩ none) [Msg.other "hi"]).rounds = 0
  ∧ (llmLoop (fun _ => ⟨"reply text", [⟨"mystery_tool", ⟨"q", none, none, none⟩, "c0"⟩]⟩)
        (worldviewRegistry 0 ⟨2026, 1, 1, 0, 0, 0⟩ none) [Msg.other "hi"]).newMsgs
      = [Msg.ai ⟨"reply text", [⟨"mystery_tool", ⟨"q", none, none, none⟩, "c0"⟩]⟩] := by
  refine ⟨by decide, by decide⟩

/-- C9, amended.  In every tool-call round the requested calls are
processed sequentially in emission order: unknown names are skipped with
no result, each known tool contributes exactly one result message (its
success value or its captured error rendering) correlated by call id; when
at least one result was produced the round counter is incremented and the
model is invoked again on the extended transcript, and a round in which
every name was unknown terminates the loop at once, keeping the current
reply. -/
theorem c9_round_processing (invoke : List Msg → AIReply) (reg : Registry)
    (fuel : Nat) (transcript newMsgs : List Msg) (resp : AIReply) (rounds : Nat)
    (h : resp.tool_calls ≠ []) :
    processToolCalls reg resp.tool_calls
        = resp.tool_calls.filterMap (fun tc =>
            (reg tc.name).map fun f => ⟨execContent f tc.args, tc.id⟩)
  ∧ (processToolCalls reg resp.tool_calls = [] →
      toolLoop invoke reg (fuel + 1) transcript newMsgs resp rounds
        = ⟨resp, newMsgs, rounds⟩)
  ∧ (processToolCalls reg resp.tool_calls ≠ [] →
      toolLoop invoke reg (fuel + 1) transcript newMsgs resp rounds
        = toolLoop invoke reg fuel
            (transcript ++ (processToolCalls reg resp.tool_calls).map Msg.tool
              ++ [Msg.ai (invoke (transcript
                    ++ (processToolCalls reg resp.tool_calls).map Msg.tool))])
            (newMsgs ++ (processToolCalls reg resp.tool_calls).map Msg.tool
              ++ [Msg.ai (invoke (transcript
                    ++ (processToolCalls reg resp.tool_calls).map Msg.tool))])
            (invoke (transcript ++ (processToolCalls reg resp.tool_calls).map Msg.tool))
            (rounds + 1)) := by
  refine ⟨processToolCalls_eq reg resp.tool_calls, ?_, ?_⟩
  · intro hp
    rw [toolLoop, if_neg h, if_pos (by simp [hp])]
  · intro hp
    rw [toolLoop, if_neg h, if_neg (by simp [hp])]

theorem c9_round_processing_witness :
    processToolCalls (worldviewRegistry 0 ⟨2026, 1, 1, 0, 0, 0⟩ none)
        (AIReply.mk "r" [⟨"worldview_link", ⟨"q", none, none, none⟩, "id1"⟩]).tool_calls
        = (AIReply.mk "r" [⟨"worldview_link", ⟨"q", none, none, none⟩, "id1"⟩]).tool_calls.filterMap
            (fun tc => ((worldviewRegistry 0 ⟨2026, 1, 1, 0, 0, 0⟩ none) tc.name).map
              fun f => ⟨execContent f tc.args, tc.id⟩)
  ∧ (processToolCalls (worldviewRegistry 0 ⟨2026, 1, 1, 0, 0, 0⟩ none)
        (AIReply.mk "r" [⟨"worldview_link", ⟨"q", none, none, none⟩, "id1"⟩]).tool_calls = [] →
      toolLoop (fun _ => ⟨"again", []⟩) (worldviewRegistry 0 ⟨2026, 1, 1, 0, 0, 0⟩ none)
          (0 + 1) [] [] (AIReply.mk "r" [⟨"worldview_link", ⟨"q", none, none, none⟩, "id1"⟩]) 0
        = ⟨AIReply.mk "r" [⟨"worldview_link", ⟨"q", none, none, none⟩, "id1"⟩], [], 0⟩)
  ∧ (processToolCalls (worldviewRegistry 0 ⟨2026, 1, 1, 0, 0, 0⟩ none)
        (AIReply.mk "r" [⟨"worldview_link", ⟨"q", none, none, none⟩, "id1"⟩]).tool_calls ≠ [] →
      toolLoop (fun _ => ⟨"again", []⟩) (worldviewRegistry 0 ⟨2026, 1, 1, 0, 0, 0⟩ none)
          (0 + 1) [] [] (AIReply.mk "r" [⟨"worldview_link", ⟨"q", none, none, none⟩, "id1"⟩]) 0
        = toolLoop (fun _ => ⟨"again", []⟩) (worldviewRegistry 0 ⟨2026, 1, 1, 0, 0, 0⟩ none) 0
            ([] ++ (processToolCalls (worldviewRegistry 0 ⟨2026, 1, 1, 0, 0, 0⟩ none)
                (AIReply.mk "r" [⟨"worldview_link", ⟨"q", none, none, none⟩, "id1"⟩]).tool_calls).map Msg.tool
              ++ [Msg.ai ((fun _ => (⟨"again", []⟩ : AIReply)) ([] ++ (processToolCalls
                    (worldviewRegistry 0 ⟨2026, 1, 1, 0, 0, 0⟩ none)
                    (AIReply.mk "r" [⟨"worldview_link", ⟨"q", none, none, none⟩, "id1"⟩]).tool_calls).map Msg.tool))])
            ([] ++ (processToolCalls (worldviewRegistry 0 ⟨2026, 1, 1, 0, 0, 0⟩ none)
                (AIReply.mk "r" [⟨"worldview_link", ⟨"q", none, none, none⟩, "id1"⟩]).tool_calls).map Msg.tool
              ++ [Msg.ai ((fun _ => (⟨"again", []⟩ : AIReply)) ([] ++ (processToolCalls
                    (worldviewRegistry 0 ⟨2026, 1, 1, 0, 0, 0⟩ none)
                    (AIReply.mk "r" [⟨"worldview_link", ⟨"q", none, none, none⟩, "id1"⟩]).tool_calls).map Msg.tool))])
            ((fun _ => (⟨"again", []⟩ : AIReply)) ([] ++ (processToolCalls
                (worldviewRegistry 0 ⟨2026, 1, 1, 0, 0, 0⟩ none)
                (AIReply.mk "r" [⟨"worldview_link", ⟨"q", none, none, none⟩, "id1"⟩]).tool_calls).map Msg.tool))
            (0 + 1)) :=
  c9_round_processing (fun _ => ⟨"again", []⟩)
    (worldviewRegistry 0 ⟨2026, 1, 1, 0, 0, 0⟩ none) 0 [] []
    (AIReply.mk "r" [⟨"worldview_link", ⟨"q", none, none, none⟩, "id1"⟩]) 0 (by decide)

end Graph
